import Mathlib

/-!
Verification of the `events` package: a shallow embedding of the event
model (event.go), the handler filter chain (handler.go) and the event
sink / namespaced view (sink.go), together with theorems settling the
specification claims.

Modelling conventions:
* Go `float64` is modelled by `EFl`: either a rational number or the
  NaN sentinel.  All comparison operators follow IEEE semantics on this
  fragment: any comparison involving NaN is false.  The claims only
  involve exactly representable values, where rational order coincides
  with float order.
* Go `interface{}` payloads are modelled by the inductive `GoData`
  covering exactly the dynamic types the source dispatches on.
* A Go closure `func(Event) error` wrapped by `NewEventHandler` is
  modelled by a script: the list of results it returns on successive
  invocations (exhausted script means nil).
* Stateful handlers become a state type `HD` with a step function
  `hdCall` returning the new state and the returned error
  (`none` = nil).
-/

/-- Model of Go float64: NaN or an exact (rational) value. -/
inductive EFl where
  | nan : EFl
  | val : Rat → EFl
deriving DecidableEq, Repr

/-- IEEE `<` : false whenever an operand is NaN. -/
def EFl.lt : EFl → EFl → Bool
  | EFl.val a, EFl.val b => decide (a < b)
  | _, _ => false

/-- IEEE `<=` : false whenever an operand is NaN. -/
def EFl.le : EFl → EFl → Bool
  | EFl.val a, EFl.val b => decide (a ≤ b)
  | _, _ => false

/-- `math.IsNaN`. -/
def EFl.isNaN : EFl → Bool
  | EFl.nan => true
  | EFl.val _ => false

/-- The `Direction` string constants of handler.go. -/
inductive GoDir where
  | dirNone
  | increasing
  | decreasing
  | steady
  | reverse
deriving DecidableEq, Repr

/-- The error values a handler `Call` can produce: the three sentinels of
handler.go plus any other error (carrying its message). -/
inductive CallErr where
  | expired
  | ignored
  | incompatible
  | other : String → CallErr
deriving DecidableEq, Repr

/-- A Go `error` result: `none` is nil. -/
abbrev CallRes := Option CallErr

/-- `err.Error()` for the errors of `CallErr`. -/
def errText : CallErr → String
  | CallErr.expired => "expired"
  | CallErr.ignored => "ignored"
  | CallErr.incompatible => "incompatible event"
  | CallErr.other s => s

/-- Dynamic Go values that `NewEvent` dispatches on: the numeric
primitives of every width, strings, maps, values implementing the
`Valuer` capability (modelled by the float their `GetValue` returns),
values implementing `fmt.Stringer` (modelled by the string their
`String` returns), and anything else. -/
inductive GoData where
  | goFloat64 : EFl → GoData
  | goFloat32 : EFl → GoData
  | goInt : Int → GoData
  | goInt64 : Int → GoData
  | goInt32 : Int → GoData
  | goInt16 : Int → GoData
  | goInt8 : Int → GoData
  | goUint : Nat → GoData
  | goUint64 : Nat → GoData
  | goUint32 : Nat → GoData
  | goUint16 : Nat → GoData
  | goUint8 : Nat → GoData
  | goString : String → GoData
  | goMap : List (String × GoData) → GoData
  | goValuer : EFl → GoData
  | goStringer : String → GoData
  | goOther : GoData

/-- Go map lookup `m[k]` (keys of a Go map are unique; first match). -/
def lookupMap : List (String × GoData) → String → Option GoData
  | [], _ => none
  | (k, v) :: rest, key => if k = key then some v else lookupMap rest key

/-- Events as built in event.go: `basicEvent` and the two
specializations embedding an inner `Event`. -/
inductive GEvent where
  | basic : String → Nat → Option GoData → GEvent
  | value : GEvent → EFl → GEvent
  | message : GEvent → String → GEvent

/-- `GetType`, delegated through the embedded event. -/
def getType : GEvent → String
  | GEvent.basic t _ _ => t
  | GEvent.value e _ => getType e
  | GEvent.message e _ => getType e

/-- `GetTime`, delegated through the embedded event. -/
def getTime : GEvent → Nat
  | GEvent.basic _ tm _ => tm
  | GEvent.value e _ => getTime e
  | GEvent.message e _ => getTime e

/-- `GetData`, delegated through the embedded event. -/
def getData : GEvent → Option GoData
  | GEvent.basic _ _ d => d
  | GEvent.value e _ => getData e
  | GEvent.message e _ => getData e

/-- The `As` method of each event type (event.go lines 53-85). -/
def evAs : GEvent → String → GEvent
  | GEvent.basic _ tm d, t => GEvent.basic t tm d
  | GEvent.value e v, t => GEvent.value (evAs e t) v
  | GEvent.message e m, t => GEvent.message (evAs e t) m

/-- The Go type assertion `ev.(ValueEvent)` followed by `GetValue`:
succeeds exactly on a `*valueEvent` (interface embedding promotes only
the `Event` methods, so the other event types never satisfy `Valuer`). -/
def asValue : GEvent → Option EFl
  | GEvent.value _ v => some v
  | _ => none

/-- `GetMessage` for a `*messageEvent`, `none` for the other types. -/
def asMessage : GEvent → Option String
  | GEvent.message _ m => some m
  | _ => none

/-- Top-level specialization of an event. -/
inductive EvKind where
  | plain
  | valueKind
  | messageKind
deriving DecidableEq, Repr

/-- The concrete specialization of an event. -/
def evKind : GEvent → EvKind
  | GEvent.basic _ _ _ => EvKind.plain
  | GEvent.value _ _ => EvKind.valueKind
  | GEvent.message _ _ => EvKind.messageKind

/-- The inner switch of `NewEvent` on `tdata["value"]` falling through
to the `tdata["message"]` lookup (event.go lines 153-162); `base` is
the basic event whose Data already holds the map. -/
def mapMessageFallback (base : GEvent) (m : List (String × GoData)) : GEvent :=
  match lookupMap m "message" with
  | some (GoData.goString s) => GEvent.message base s
  | some (GoData.goStringer s) => GEvent.message base s
  | _ => base

/-- `NewEvent` (event.go lines 87-172).  `now` stands for the
construction timestamp `time.Now()`. -/
def newEvent (evtType : String) (now : Nat) (data : GoData) : GEvent :=
  let base := GEvent.basic evtType now none
  match data with
  | GoData.goFloat64 v => GEvent.value base v
  | GoData.goFloat32 v => GEvent.value base v
  | GoData.goInt v => GEvent.value base (EFl.val v)
  | GoData.goInt64 v => GEvent.value base (EFl.val v)
  | GoData.goInt32 v => GEvent.value base (EFl.val v)
  | GoData.goInt16 v => GEvent.value base (EFl.val v)
  | GoData.goInt8 v => GEvent.value base (EFl.val v)
  | GoData.goUint v => GEvent.value base (EFl.val v)
  | GoData.goUint64 v => GEvent.value base (EFl.val v)
  | GoData.goUint32 v => GEvent.value base (EFl.val v)
  | GoData.goUint16 v => GEvent.value base (EFl.val v)
  | GoData.goUint8 v => GEvent.value base (EFl.val v)
  | GoData.goString s => GEvent.message base s
  | GoData.goMap m =>
    let mbase := GEvent.basic evtType now (some (GoData.goMap m))
    match lookupMap m "value" with
    | some mv =>
      match mv with
      | GoData.goFloat64 v => GEvent.value mbase v
      | GoData.goFloat32 v => GEvent.value mbase v
      | GoData.goInt v => GEvent.value mbase (EFl.val v)
      | GoData.goInt64 v => GEvent.value mbase (EFl.val v)
      | GoData.goInt32 v => GEvent.value mbase (EFl.val v)
      | GoData.goInt16 v => GEvent.value mbase (EFl.val v)
      | GoData.goInt8 v => GEvent.value mbase (EFl.val v)
      | GoData.goUint v => GEvent.value mbase (EFl.val v)
      | GoData.goUint64 v => GEvent.value mbase (EFl.val v)
      | GoData.goUint32 v => GEvent.value mbase (EFl.val v)
      | GoData.goUint16 v => GEvent.value mbase (EFl.val v)
      | GoData.goUint8 v => GEvent.value mbase (EFl.val v)
      | GoData.goValuer v => GEvent.value mbase v
      | GoData.goString s => GEvent.message mbase s
      | GoData.goStringer s => GEvent.message mbase s
      | _ => mapMessageFallback mbase m
    | none => mapMessageFallback mbase m
  | GoData.goValuer v => GEvent.value (GEvent.basic evtType now (some data)) v
  | GoData.goStringer s => GEvent.message (GEvent.basic evtType now (some data)) s
  | GoData.goOther => GEvent.basic evtType now (some data)

/-- State of a `basicEventHandler` (handler.go lines 32-79).  The Go
closure is modelled by `script`: the result of its i-th invocation
(an exhausted script returns nil). -/
structure BaseH where
  id : Int
  script : List CallRes
  ncalls : Nat
  lastErr : CallRes

/-- State of a handler decorator chain: the base handler or one of the
stateful filter wrappers of handler.go around an inner handler. -/
inductive HD where
  | base : BaseH → HD
  | maxCalls : HD → Nat → Nat → HD
  | direction : HD → GoDir → EFl → GoDir → HD
  | threshold : HD → GoDir → EFl → EFl → Bool → HD
  | range : HD → EFl → EFl → HD

/-- The `Expired` method of each handler type.  The filters without
their own override promote the embedded handler's method. -/
def hdExpired : HD → Bool
  | HD.base _ => false
  | HD.maxCalls inner mx c => if c ≥ mx then true else hdExpired inner
  | HD.direction inner _ _ _ => hdExpired inner
  | HD.threshold inner _ _ _ _ => hdExpired inner
  | HD.range inner _ _ => hdExpired inner

/-- The `Call` method of each handler type, returning the updated
handler state and the returned error (`none` = nil). -/
def hdCall : HD → GEvent → HD × CallRes
  | HD.base b, _ =>
    let err := b.script.getD b.ncalls none
    let b' : BaseH := { b with ncalls := b.ncalls + 1, lastErr := err }
    match err with
    | none => (HD.base b', none)
    | some CallErr.ignored => (HD.base b', none)
    | some e => (HD.base b', some e)
  | HD.maxCalls inner mx c, ev =>
    if c ≥ mx then (HD.maxCalls inner mx c, some CallErr.expired)
    else
      match hdCall inner ev with
      | (inner', none) => (HD.maxCalls inner' mx (c + 1), none)
      | (inner', some CallErr.ignored) => (HD.maxCalls inner' mx c, none)
      | (inner', some e) => (HD.maxCalls inner' mx c, some e)
  | HD.direction inner target lv cd, ev =>
    match asValue ev with
    | none => (HD.direction inner target lv cd, some CallErr.incompatible)
    | some v =>
      if v.isNaN then (HD.direction inner target lv cd, some CallErr.ignored)
      else if lv.isNaN then (HD.direction inner target v cd, some CallErr.ignored)
      else
        let dir := if EFl.lt v lv then GoDir.decreasing
                   else if EFl.lt lv v then GoDir.increasing
                   else GoDir.steady
        if dir = GoDir.steady then
          if target = GoDir.steady then
            let r := hdCall inner ev
            (HD.direction r.1 target lv cd, r.2)
          else (HD.direction inner target lv cd, some CallErr.ignored)
        else if target = GoDir.reverse then
          if dir ≠ cd then
            let r := hdCall inner ev
            (HD.direction r.1 target lv cd, r.2)
          else (HD.direction inner target lv cd, some CallErr.ignored)
        else
          if dir = target then
            let r := hdCall inner ev
            (HD.direction r.1 target lv dir, r.2)
          else (HD.direction inner target lv dir, some CallErr.ignored)
  | HD.threshold inner d trig rst tr, ev =>
    match asValue ev with
    | none => (HD.threshold inner d trig rst tr, some CallErr.incompatible)
    | some v =>
      if v.isNaN then (HD.threshold inner d trig rst tr, some CallErr.ignored)
      else if tr then
        let tr' :=
          match d with
          | GoDir.decreasing => if EFl.le rst v then false else tr
          | GoDir.increasing => if EFl.le v rst then false else tr
          | _ => tr
        (HD.threshold inner d trig rst tr', some CallErr.ignored)
      else
        match d with
        | GoDir.decreasing =>
          if EFl.le v trig then
            let r := hdCall inner ev
            (HD.threshold r.1 d trig rst true, r.2)
          else (HD.threshold inner d trig rst tr, some CallErr.ignored)
        | GoDir.increasing =>
          if EFl.le trig v then
            let r := hdCall inner ev
            (HD.threshold r.1 d trig rst true, r.2)
          else (HD.threshold inner d trig rst tr, some CallErr.ignored)
        | _ => (HD.threshold inner d trig rst tr, some CallErr.ignored)
  | HD.range inner mn mx, ev =>
    match asValue ev with
    | none => (HD.range inner mn mx, some CallErr.incompatible)
    | some v =>
      if v.isNaN then (HD.range inner mn mx, some CallErr.ignored)
      else if EFl.lt mx mn then
        if EFl.lt v mn || EFl.lt mx v then
          let r := hdCall inner ev
          (HD.range r.1 mn mx, r.2)
        else (HD.range inner mn mx, some CallErr.ignored)
      else
        if EFl.lt v mn || EFl.lt mx v then (HD.range inner mn mx, some CallErr.ignored)
        else
          let r := hdCall inner ev
          (HD.range r.1 mn mx, r.2)

/-- `WithMaxCalls` (handler.go lines 87-92): `maxCalls ≤ 0` returns the
handler unchanged. -/
def withMaxCalls (h : HD) (mx : Int) : HD :=
  if mx ≤ 0 then h else HD.maxCalls h mx.toNat 0

/-- `WithDirection` (handler.go lines 149-151): baseline NaN, no
recorded direction. -/
def withDirection (h : HD) (d : GoDir) : HD :=
  HD.direction h d EFl.nan GoDir.dirNone

/-- `WithThreshold` (handler.go lines 199-201): starts un-latched. -/
def withThreshold (h : HD) (d : GoDir) (trig rst : EFl) : HD :=
  HD.threshold h d trig rst false

/-- `WithRange` (handler.go lines 246-248). -/
def withRange (h : HD) (mn mx : EFl) : HD :=
  HD.range h mn mx

/-- Number of invocations the terminal base handler has received. -/
def baseNCalls : HD → Nat
  | HD.base b => b.ncalls
  | HD.maxCalls inner _ _ => baseNCalls inner
  | HD.direction inner _ _ _ => baseNCalls inner
  | HD.threshold inner _ _ _ _ => baseNCalls inner
  | HD.range inner _ _ => baseNCalls inner

/-- Feed a list of events through a handler, recording after each call
the returned error and the cumulative number of terminal-handler
invocations. -/
def hdTrace : HD → List GEvent → List (CallRes × Nat)
  | _, [] => []
  | h, ev :: rest =>
    let r := hdCall h ev
    (r.2, baseNCalls r.1) :: hdTrace r.1 rest

/-- Feed a list of events through a handler, returning the final state. -/
def hdRun : HD → List GEvent → HD
  | h, [] => h
  | h, ev :: rest => hdRun (hdCall h ev).1 rest

/-- A value event carrying a rational value (type and time immaterial
to the filters). -/
def vev (q : Rat) : GEvent :=
  GEvent.value (GEvent.basic "test" 0 none) (EFl.val q)

/-- A terminal handler whose callback always succeeds (empty script:
every invocation returns nil). -/
def okBase : HD :=
  HD.base { id := 1, script := [], ncalls := 0, lastErr := none }

/-- The `ListenerMeta` record emitted with sink meta-events
(sink.go lines 13-17); `errStr` is its `Error` field. -/
structure ListenerMeta where
  eventType : String
  handlerID : Int
  errStr : String
deriving DecidableEq, Repr

/-- What the per-listener dispatch of `Fire` does after a call:
whether `RemoveEventListener` is invoked for the listener, and the
`listener-error` meta-event payload emitted, if any. -/
structure FireOutcome where
  removed : Bool
  report : Option ListenerMeta
deriving DecidableEq, Repr

/-- The per-listener outcome handling inside `basicEventSink.Fire`
(sink.go lines 113-132): `err` is the result of the listener's `Call`
and `expiredNow` the result of its `Expired()` afterwards. -/
def fireListenerOutcome (et : String) (hid : Int) (err : CallRes)
    (expiredNow : Bool) : FireOutcome :=
  match err with
  | some CallErr.expired => { removed := true, report := none }
  | some CallErr.ignored => { removed := expiredNow, report := none }
  | some e =>
    { removed := expiredNow
      report := some { eventType := et, handlerID := hid, errStr := errText e } }
  | none => { removed := expiredNow, report := none }

/-- `basicEventSink.RemoveEventListener` on one event type's listener
list, identified by handler ids (sink.go lines 64-77): keeps exactly
the handlers whose id differs. -/
def removeEventListener (hs : List Int) (hid : Int) : List Int :=
  hs.filter (fun x => x ≠ hid)

/-- `NewPrefixedEventSource` stores the prefix with a trailing
separator (sink.go line 170). -/
def newPrefixedPfx (p : String) : String := p ++ "-"

/-- Event type passed to the underlying sink by the view's
`AddEventListener` (sink.go line 174). -/
def prefixedAddListenerType (pfx t : String) : String := pfx ++ t

/-- Event type passed to the underlying sink by the view's `Emit`
(sink.go line 194). -/
def prefixedEmitType (pfx t : String) : String := pfx ++ t

/-- The view's `As` helper, used by `Fire` and `RegisterEventType`
(sink.go lines 185-187): re-types the event under the prefixed type. -/
def prefixedAs (pfx : String) (ev : GEvent) : GEvent :=
  evAs ev (pfx ++ getType ev)

/-- Event type reaching the underlying sink from the view's
`RemoveEventListener` within a recursion budget of `fuel` calls.  The
method body (sink.go line 178) is `es.RemoveEventListener(es.prefix +
eventType, handler)`: it calls itself, not the embedded sink, so no
budget ever produces an underlying-sink call. -/
def prefixedRemoveSinkType (pfx : String) : Nat → String → Option String
  | 0, _ => none
  | fuel + 1, t => prefixedRemoveSinkType pfx fuel (pfx ++ t)

/-- Event type reaching the underlying sink from the view's `Once`
within a recursion budget of `fuel` calls.  The method body (sink.go
line 182) is `es.Once(es.prefix + eventType, handler)`: it calls
itself, not the embedded sink. -/
def prefixedOnceSinkType (pfx : String) : Nat → String → Option String
  | 0, _ => none
  | fuel + 1, t => prefixedOnceSinkType pfx fuel (pfx ++ t)

/-- The widening of the numeric primitive cases dispatched by
`NewEvent` (both float widths and every integer width, each converted
through `float64(...)`); `none` for every non-numeric-primitive value. -/
def numericWiden : GoData → Option EFl
  | GoData.goFloat64 v => some v
  | GoData.goFloat32 v => some v
  | GoData.goInt v => some (EFl.val v)
  | GoData.goInt64 v => some (EFl.val v)
  | GoData.goInt32 v => some (EFl.val v)
  | GoData.goInt16 v => some (EFl.val v)
  | GoData.goInt8 v => some (EFl.val v)
  | GoData.goUint v => some (EFl.val v)
  | GoData.goUint64 v => some (EFl.val v)
  | GoData.goUint32 v => some (EFl.val v)
  | GoData.goUint16 v => some (EFl.val v)
  | GoData.goUint8 v => some (EFl.val v)
  | _ => none

/-- Helper: `As` installs the requested type. -/
theorem getType_evAs (e : GEvent) (t : String) : getType (evAs e t) = t := by
  induction e with
  | basic ty tm d => rfl
  | value inner v ih => simpa [evAs, getType] using ih
  | message inner m ih => simpa [evAs, getType] using ih

/-- Helper: `As` preserves the timestamp. -/
theorem getTime_evAs (e : GEvent) (t : String) : getTime (evAs e t) = getTime e := by
  induction e with
  | basic ty tm d => rfl
  | value inner v ih => simpa [evAs, getTime] using ih
  | message inner m ih => simpa [evAs, getTime] using ih

/-- Helper: `As` preserves the data payload. -/
theorem getData_evAs (e : GEvent) (t : String) : getData (evAs e t) = getData e := by
  induction e with
  | basic ty tm d => rfl
  | value inner v ih => simpa [evAs, getData] using ih
  | message inner m ih => simpa [evAs, getData] using ih

/-- Helper: `As` preserves the concrete specialization. -/
theorem evKind_evAs (e : GEvent) (t : String) : evKind (evAs e t) = evKind e := by
  cases e <;> rfl

/-- Helper: `As` preserves the value of a value event. -/
theorem asValue_evAs (e : GEvent) (t : String) : asValue (evAs e t) = asValue e := by
  cases e <;> rfl

/-- Helper: `As` preserves the message of a message event. -/
theorem asMessage_evAs (e : GEvent) (t : String) : asMessage (evAs e t) = asMessage e := by
  cases e <;> rfl

/-- C8: for every event of every specialization and every type string,
`As` yields an event with the new type whose time, data, specialization
kind, value and message all equal the original's (and, the embedding
being pure, the original is untouched). -/
theorem as_preserves_all_fields (e : GEvent) (t : String) :
    getType (evAs e t) = t ∧ getTime (evAs e t) = getTime e ∧
    getData (evAs e t) = getData e ∧ evKind (evAs e t) = evKind e ∧
    asValue (evAs e t) = asValue e ∧ asMessage (evAs e t) = asMessage e :=
  ⟨getType_evAs e t, getTime_evAs e t, getData_evAs e t, evKind_evAs e t,
   asValue_evAs e t, asMessage_evAs e t⟩

/-- C4: per-listener outcome handling in `Fire`: an expired result
removes the listener and reports nothing; an ignored result reports
nothing and removes only if the listener reports itself expired; a nil
result likewise; any other error is reported as a listener-error
meta-event carrying the event type, handler id and stringified error;
and removal by id leaves no handler with that id in the registry
entry. -/
theorem fire_listener_outcome_spec (et : String) (hid : Int) (exp : Bool)
    (s : String) (hs : List Int) :
    fireListenerOutcome et hid (some CallErr.expired) exp = { removed := true, report := none } ∧
    fireListenerOutcome et hid (some CallErr.ignored) exp = { removed := exp, report := none } ∧
    fireListenerOutcome et hid none exp = { removed := exp, report := none } ∧
    fireListenerOutcome et hid (some (CallErr.other s)) exp =
      { removed := exp, report := some { eventType := et, handlerID := hid, errStr := s } } ∧
    fireListenerOutcome et hid (some CallErr.incompatible) exp =
      { removed := exp
        report := some { eventType := et, handlerID := hid, errStr := "incompatible event" } } ∧
    hid ∉ removeEventListener hs hid := by
  refine ⟨rfl, rfl, rfl, rfl, rfl, ?_⟩
  simp [removeEventListener]

/-- C3: the namespaced view prepends the stored prefix for
`AddEventListener`, `Emit`, and the `As` used by `Fire` and
`RegisterEventType`; but its `RemoveEventListener` and `Once` call
themselves instead of the embedded sink, so no recursion budget ever
yields a delegated call on the underlying sink. -/
theorem prefixed_view_delegation :
    (∀ p t, prefixedAddListenerType (newPrefixedPfx p) t = (p ++ "-") ++ t) ∧
    (∀ p t, prefixedEmitType (newPrefixedPfx p) t = (p ++ "-") ++ t) ∧
    (∀ p ev, getType (prefixedAs (newPrefixedPfx p) ev) = (p ++ "-") ++ getType ev) ∧
    (∀ p fuel t, prefixedRemoveSinkType (newPrefixedPfx p) fuel t = none) ∧
    (∀ p fuel t, prefixedOnceSinkType (newPrefixedPfx p) fuel t = none) := by
  refine ⟨fun p t => rfl, fun p t => rfl, fun p ev => getType_evAs _ _, ?_, ?_⟩
  · intro p fuel
    induction fuel with
    | zero => intro t; rfl
    | succ n ih => intro t; exact ih _
  · intro p fuel
    induction fuel with
    | zero => intro t; rfl
    | succ n ih => intro t; exact ih _

/-- C1: with inverted bounds min=10 > max=5 the range filter's guard
`val < min || val > max` is a tautology, so every non-NaN value —
including 7, which the claim says is rejected — is forwarded to the
inner handler (terminal handler invoked once, nil returned). -/
theorem range_inverted_admits_everything (q : Rat) :
    (hdCall (withRange okBase (EFl.val 10) (EFl.val 5)) (vev q)).2 = none ∧
    baseNCalls (hdCall (withRange okBase (EFl.val 10) (EFl.val 5)) (vev q)).1 = 1 := by
  have hb : (EFl.lt (EFl.val q) (EFl.val 10) || EFl.lt (EFl.val 5) (EFl.val q)) = true := by
    rcases lt_or_le q 10 with h | h
    · simp [EFl.lt, h]
    · have h5 : (5 : Rat) < q := lt_of_lt_of_le (by norm_num) h
      simp [EFl.lt, h5]
  have hinv : EFl.lt (EFl.val 5) (EFl.val 10) = true := by decide
  constructor <;>
    simp [withRange, vev, hdCall, asValue, EFl.isNaN, hinv, hb, okBase, baseNCalls]

/-- C2: the direction filter never updates its recorded last value
after the baseline and never updates its recorded direction on the
reverse path, so with target reverse and values 1,2,3,2 it invokes the
inner handler three times (at 2, 3 and 2) instead of once at the final
value. -/
theorem direction_reverse_1232_admits_thrice :
    hdTrace (withDirection okBase GoDir.reverse) [vev 1, vev 2, vev 3, vev 2] =
      [(some CallErr.ignored, 0), (none, 1), (none, 2), (none, 3)] := by decide

/-- C6: the decreasing threshold filter with trigger 10 and reset 15,
fed 20,12,9,8,16,7, invokes the inner handler exactly at 9 (latching)
and at 7 (after 16 cleared the latch), returning ignored elsewhere. -/
theorem threshold_20_12_9_8_16_7_admits_at_9_and_7 :
    hdTrace (withThreshold okBase GoDir.decreasing (EFl.val 10) (EFl.val 15))
        [vev 20, vev 12, vev 9, vev 8, vev 16, vev 7] =
      [(some CallErr.ignored, 0), (some CallErr.ignored, 0), (none, 1),
       (some CallErr.ignored, 1), (some CallErr.ignored, 1), (none, 2)] := by decide

/-- C7 counterexample: a max-calls wrapper with limit 1 over an inner
handler that fails once forwards two calls to the inner handler (its
invocation count reaches 2), because a call whose inner result is an
error does not increment the wrapper's counter; so "admits exactly n
calls" is false as stated. -/
theorem maxcalls_forwards_more_than_max :
    hdTrace (withMaxCalls
        (HD.base { id := 1, script := [some (CallErr.other "boom")], ncalls := 0, lastErr := none }) 1)
        [vev 1, vev 2, vev 3] =
      [(some (CallErr.other "boom"), 1), (none, 2), (some CallErr.expired, 2)] := by decide

/-- C7 amended: with n ≤ 0 the wrapper is the unwrapped handler; once
the counter has reached the limit, every Call returns expired without
touching any state and Expired() reports true (hence permanently);
while the counter is below the limit, the call is forwarded to the
inner handler, the counter increments exactly when the inner result is
nil, an inner ignored result is suppressed to nil, and any other inner
result is passed through. -/
theorem maxcalls_amended_spec :
    (∀ (h : HD) (n : Int), n ≤ 0 → withMaxCalls h n = h) ∧
    (∀ (inner : HD) (n c : Nat) (ev : GEvent), n ≤ c →
      hdCall (HD.maxCalls inner n c) ev = (HD.maxCalls inner n c, some CallErr.expired) ∧
      hdExpired (HD.maxCalls inner n c) = true) ∧
    (∀ (inner : HD) (n c : Nat) (ev : GEvent), c < n →
      hdCall (HD.maxCalls inner n c) ev =
        (HD.maxCalls (hdCall inner ev).1 n
          (if (hdCall inner ev).2 = none then c + 1 else c),
         if (hdCall inner ev).2 = none then none
         else if (hdCall inner ev).2 = some CallErr.ignored then none
         else (hdCall inner ev).2)) := by
  refine ⟨?_, ?_, ?_⟩
  · intro h n hn
    simp [withMaxCalls, hn]
  · intro inner n c ev hnc
    constructor
    · simp [hdCall, hnc]
    · simp [hdExpired, hnc]
  · intro inner n c ev hcn
    have hge : ¬ c ≥ n := Nat.not_le.mpr hcn
    rcases hr : hdCall inner ev with ⟨inner', r⟩
    rcases r with _ | e
    · simp [hdCall, hge, hr]
    · rcases e <;> simp [hdCall, hge, hr]

/-- C7 amended witness: the amended statement instantiated at concrete
inputs. -/
theorem maxcalls_amended_witness :
    withMaxCalls okBase (-1) = okBase ∧
    hdCall (HD.maxCalls okBase 1 1) (vev 0) = (HD.maxCalls okBase 1 1, some CallErr.expired) ∧
    hdExpired (HD.maxCalls okBase 1 1) = true ∧
    hdCall (HD.maxCalls okBase 1 0) (vev 0) =
      (HD.maxCalls (hdCall okBase (vev 0)).1 1
        (if (hdCall okBase (vev 0)).2 = none then 0 + 1 else 0),
       if (hdCall okBase (vev 0)).2 = none then none
       else if (hdCall okBase (vev 0)).2 = some CallErr.ignored then none
       else (hdCall okBase (vev 0)).2) :=
  ⟨maxcalls_amended_spec.1 okBase (-1) (by decide),
   (maxcalls_amended_spec.2.1 okBase 1 1 (vev 0) (by decide)).1,
   (maxcalls_amended_spec.2.1 okBase 1 1 (vev 0) (by decide)).2,
   maxcalls_amended_spec.2.2 okBase 1 0 (vev 0) (by decide)⟩

/-- C9: each numeric filter (direction, threshold, range) returns the
incompatible-event error, without invoking the inner handler or
touching state, when the event is not a value event; returns ignored,
again without invocation or state change, when the value is NaN; and
the incompatible-event error is reported by the sink's per-listener
outcome handling (not suppressed). -/
theorem numeric_filters_incompatible_and_nan :
    (∀ (inner : HD) (tg : GoDir) (lv : EFl) (cd : GoDir) (e : GEvent),
      asValue e = none →
      hdCall (HD.direction inner tg lv cd) e =
        (HD.direction inner tg lv cd, some CallErr.incompatible)) ∧
    (∀ (inner : HD) (d : GoDir) (tv rv : EFl) (tr : Bool) (e : GEvent),
      asValue e = none →
      hdCall (HD.threshold inner d tv rv tr) e =
        (HD.threshold inner d tv rv tr, some CallErr.incompatible)) ∧
    (∀ (inner : HD) (mn mx : EFl) (e : GEvent),
      asValue e = none →
      hdCall (HD.range inner mn mx) e = (HD.range inner mn mx, some CallErr.incompatible)) ∧
    (∀ (inner : HD) (tg : GoDir) (lv : EFl) (cd : GoDir) (b : GEvent),
      hdCall (HD.direction inner tg lv cd) (GEvent.value b EFl.nan) =
        (HD.direction inner tg lv cd, some CallErr.ignored)) ∧
    (∀ (inner : HD) (d : GoDir) (tv rv : EFl) (tr : Bool) (b : GEvent),
      hdCall (HD.threshold inner d tv rv tr) (GEvent.value b EFl.nan) =
        (HD.threshold inner d tv rv tr, some CallErr.ignored)) ∧
    (∀ (inner : HD) (mn mx : EFl) (b : GEvent),
      hdCall (HD.range inner mn mx) (GEvent.value b EFl.nan) =
        (HD.range inner mn mx, some CallErr.ignored)) ∧
    (∀ (et : String) (hid : Int) (exp : Bool),
      (fireListenerOutcome et hid (some CallErr.incompatible) exp).report =
        some { eventType := et, handlerID := hid, errStr := "incompatible event" }) := by
  refine ⟨?_, ?_, ?_, ?_, ?_, ?_, ?_⟩
  · intro inner tg lv cd e h; simp [hdCall, h]
  · intro inner d tv rv tr e h; simp [hdCall, h]
  · intro inner mn mx e h; simp [hdCall, h]
  · intro inner tg lv cd b; simp [hdCall, asValue, EFl.isNaN]
  · intro inner d tv rv tr b; simp [hdCall, asValue, EFl.isNaN]
  · intro inner mn mx b; simp [hdCall, asValue, EFl.isNaN]
  · intro et hid exp; rfl

/-- C9 witness: the three filters applied to a concrete message event
and the outcome handling of the resulting error. -/
theorem numeric_filters_incompatible_witness :
    hdCall (HD.direction okBase GoDir.reverse EFl.nan GoDir.dirNone)
        (GEvent.message (GEvent.basic "t" 0 none) "m") =
      (HD.direction okBase GoDir.reverse EFl.nan GoDir.dirNone, some CallErr.incompatible) ∧
    hdCall (HD.threshold okBase GoDir.decreasing (EFl.val 10) (EFl.val 15) false)
        (GEvent.message (GEvent.basic "t" 0 none) "m") =
      (HD.threshold okBase GoDir.decreasing (EFl.val 10) (EFl.val 15) false,
       some CallErr.incompatible) ∧
    hdCall (HD.range okBase (EFl.val 5) (EFl.val 10))
        (GEvent.message (GEvent.basic "t" 0 none) "m") =
      (HD.range okBase (EFl.val 5) (EFl.val 10), some CallErr.incompatible) ∧
    (fireListenerOutcome "t" 1 (some CallErr.incompatible) false).report =
      some { eventType := "t", handlerID := 1, errStr := "incompatible event" } :=
  ⟨numeric_filters_incompatible_and_nan.1 okBase GoDir.reverse EFl.nan GoDir.dirNone _ rfl,
   numeric_filters_incompatible_and_nan.2.1 okBase GoDir.decreasing (EFl.val 10) (EFl.val 15)
     false _ rfl,
   numeric_filters_incompatible_and_nan.2.2.1 okBase (EFl.val 5) (EFl.val 10) _ rfl,
   numeric_filters_incompatible_and_nan.2.2.2.2.2.2 "t" 1 false⟩

/-- C5: `NewEvent` follows the coercion table: any numeric primitive
(every integer width and both float widths, widened to float) yields a
value event; a string yields a message event; a mapping whose "value"
entry is numeric yields a value event regardless of any "message"
entry (so "value" wins a tie); a mapping without a "value" entry whose
"message" entry is a string or a stringable yields a message event;
and a mapping with neither recognized entry stays a plain event
carrying the whole mapping as data. -/
theorem newevent_coercion_table (t : String) (now : Nat) (s : String)
    (m : List (String × GoData)) :
    (∀ (d : GoData) (w : EFl), numericWiden d = some w →
      newEvent t now d = GEvent.value (GEvent.basic t now none) w) ∧
    newEvent t now (GoData.goString s) = GEvent.message (GEvent.basic t now none) s ∧
    (∀ (d : GoData) (w : EFl), lookupMap m "value" = some d → numericWiden d = some w →
      newEvent t now (GoData.goMap m) =
        GEvent.value (GEvent.basic t now (some (GoData.goMap m))) w) ∧
    (lookupMap m "value" = none → lookupMap m "message" = some (GoData.goString s) →
      newEvent t now (GoData.goMap m) =
        GEvent.message (GEvent.basic t now (some (GoData.goMap m))) s) ∧
    (lookupMap m "value" = none → lookupMap m "message" = some (GoData.goStringer s) →
      newEvent t now (GoData.goMap m) =
        GEvent.message (GEvent.basic t now (some (GoData.goMap m))) s) ∧
    (lookupMap m "value" = none → lookupMap m "message" = none →
      newEvent t now (GoData.goMap m) = GEvent.basic t now (some (GoData.goMap m))) := by
  refine ⟨?_, rfl, ?_, ?_, ?_, ?_⟩
  · intro d w h
    cases d <;> simp_all [numericWiden, newEvent]
  · intro d w hv hw
    cases d <;> simp_all [numericWiden, newEvent]
  · intro hv hm
    simp [newEvent, hv, mapMessageFallback, hm]
  · intro hv hm
    simp [newEvent, hv, mapMessageFallback, hm]
  · intro hv hm
    simp [newEvent, hv, mapMessageFallback, hm]

/-- C5 witness: the coercion table at concrete payloads, including a
mapping holding both a numeric "value" and a "message". -/
theorem newevent_coercion_witness :
    newEvent "t" 0 (GoData.goInt 3) = GEvent.value (GEvent.basic "t" 0 none) (EFl.val 3) ∧
    newEvent "t" 0 (GoData.goString "hi") = GEvent.message (GEvent.basic "t" 0 none) "hi" ∧
    newEvent "t" 0 (GoData.goMap [("value", GoData.goFloat64 (EFl.val 5)),
        ("message", GoData.goString "hi")]) =
      GEvent.value (GEvent.basic "t" 0 (some (GoData.goMap
        [("value", GoData.goFloat64 (EFl.val 5)), ("message", GoData.goString "hi")])))
        (EFl.val 5) ∧
    newEvent "t" 0 (GoData.goMap [("message", GoData.goString "hi")]) =
      GEvent.message (GEvent.basic "t" 0 (some (GoData.goMap
        [("message", GoData.goString "hi")]))) "hi" ∧
    newEvent "t" 0 (GoData.goMap [("x", GoData.goOther)]) =
      GEvent.basic "t" 0 (some (GoData.goMap [("x", GoData.goOther)])) :=
  ⟨(newevent_coercion_table "t" 0 "hi" []).1 (GoData.goInt 3) (EFl.val 3) rfl,
   (newevent_coercion_table "t" 0 "hi" []).2.1,
   (newevent_coercion_table "t" 0 "hi"
      [("value", GoData.goFloat64 (EFl.val 5)), ("message", GoData.goString "hi")]).2.2.1
     (GoData.goFloat64 (EFl.val 5)) (EFl.val 5) (by simp [lookupMap]) rfl,
   (newevent_coercion_table "t" 0 "hi"
      [("message", GoData.goString "hi")]).2.2.2.1 (by simp [lookupMap]) (by simp [lookupMap]),
   (newevent_coercion_table "t" 0 "hi"
      [("x", GoData.goOther)]).2.2.2.2.2 (by simp [lookupMap]) (by simp [lookupMap])⟩

/-- C10: a mapping whose "value" entry is a string (or a stringable)
yields a message event carrying that string — even when a "message"
entry is also present, since the "value" switch returns first — and
the "message" entry is consulted when the "value" entry has an
unrecognized type. -/
theorem newevent_map_value_string (t : String) (now : Nat) (s s' : String)
    (m : List (String × GoData)) :
    (lookupMap m "value" = some (GoData.goString s) →
      newEvent t now (GoData.goMap m) =
        GEvent.message (GEvent.basic t now (some (GoData.goMap m))) s) ∧
    (lookupMap m "value" = some (GoData.goStringer s) →
      newEvent t now (GoData.goMap m) =
        GEvent.message (GEvent.basic t now (some (GoData.goMap m))) s) ∧
    (lookupMap m "value" = some GoData.goOther →
      lookupMap m "message" = some (GoData.goString s') →
      newEvent t now (GoData.goMap m) =
        GEvent.message (GEvent.basic t now (some (GoData.goMap m))) s') := by
  refine ⟨?_, ?_, ?_⟩
  · intro hv; simp [newEvent, hv]
  · intro hv; simp [newEvent, hv]
  · intro hv hm; simp [newEvent, hv, mapMessageFallback, hm]

/-- C10 witness: a mapping with a string "value" and a different
"message" yields the "value" string; an unrecognized "value" defers to
the "message" entry. -/
theorem newevent_map_value_string_witness :
    newEvent "t" 0 (GoData.goMap [("value", GoData.goString "five"),
        ("message", GoData.goString "other")]) =
      GEvent.message (GEvent.basic "t" 0 (some (GoData.goMap
        [("value", GoData.goString "five"), ("message", GoData.goString "other")]))) "five" ∧
    newEvent "t" 0 (GoData.goMap [("value", GoData.goOther),
        ("message", GoData.goString "m2")]) =
      GEvent.message (GEvent.basic "t" 0 (some (GoData.goMap
        [("value", GoData.goOther), ("message", GoData.goString "m2")]))) "m2" :=
  ⟨(newevent_map_value_string "t" 0 "five" "other"
      [("value", GoData.goString "five"), ("message", GoData.goString "other")]).1
     (by simp [lookupMap]),
   (newevent_map_value_string "t" 0 "x" "m2"
      [("value", GoData.goOther), ("message", GoData.goString "m2")]).2.2
     (by simp [lookupMap]) (by simp [lookupMap])⟩
